import Mathlib

/-!
Verification of the Last.fm ETL pipeline (`lastfm_etl_fix.py`).

The pipeline is embedded shallowly:

* pandas `DataFrame`s become `DF`: an ordered list of column names together
  with rows, each row an association list from column name to `Value`
  (strings, integers, nested JSON objects/arrays, and null/NaN);
* Python exceptions (`KeyError`, `ValueError` from `astype`, `TypeError`,
  `requests` HTTP errors, BigQuery job failures) become a `Fault` type and
  fallible operations return `Except Fault _`;
* the in-place mutation of the caller's DataFrame performed by
  `transform_global` is made explicit: the embedded function returns the
  pair (mutated input table, returned projection);
* outbound I/O (the HTTP GET, BigQuery client creation, the load job and
  the row-count metadata read) is recorded as an `Event` trace;
* `datetime.utcnow().isoformat()` is a parameter `now`, and the HTTP layer
  and the warehouse are parameters (`fetch`, `loadOk`) of the orchestrator.
-/

set_option autoImplicit false

namespace LastfmEtl

/-- A JSON-ish scalar or nested value as it appears in a DataFrame cell:
`null` doubles as pandas `NaN`/Python `None`. -/
inductive Value where
  | null : Value
  | str : String → Value
  | int : Int → Value
  | dict : List (String × Value) → Value
  | list : List Value → Value

/-- Python exceptions that the pipeline can raise. -/
inductive Fault where
  | keyError (key : String) : Fault
  | valueError : Fault
  | typeError : Fault
  | httpError : Fault
  | loadError : Fault
  | attributeError : Fault
deriving DecidableEq, Repr

/-- One row of a DataFrame: an association list from column name to value. -/
abbrev Row := List (String × Value)

/-- Reading a cell: the first binding of the column name, pandas `NaN`
(modelled `null`) when the row has no such binding. -/
def rowGet (r : Row) (c : String) : Value :=
  (r.lookup c).getD .null

/-- Writing a cell: drop any previous binding of the column, append the new
one (only `rowGet` observes rows, so the position of a binding is irrelevant). -/
def rowSet (r : Row) (c : String) (v : Value) : Row :=
  r.filter (fun kv => kv.1 ≠ c) ++ [(c, v)]

/-- A pandas DataFrame: ordered column names and rows. -/
structure DF where
  cols : List String
  rows : List Row

/-- `df.empty`: true when either axis has length zero. -/
def DF.emptyB (df : DF) : Bool :=
  df.rows.isEmpty || df.cols.isEmpty

/-- `df[c]` as a read: the column's values, `KeyError` when the column is
absent. -/
def DF.getCol (df : DF) (c : String) : Except Fault (List Value) :=
  if c ∈ df.cols then .ok (df.rows.map (fun r => rowGet r c))
  else .error (.keyError c)

/-- Column-name bookkeeping of an assignment: a new name is appended at the
end, an existing one stays where it is. -/
def addCol (cs : List String) (c : String) : List String :=
  if c ∈ cs then cs else cs ++ [c]

/-- `df[c] = <series computed row-wise>`: sets the cell in every row and adds
the column name at the end when it is new. -/
def DF.setColF (df : DF) (c : String) (f : Row → Value) : DF :=
  { cols := addCol df.cols c,
    rows := df.rows.map (fun r => rowSet r c (f r)) }

/-- The numeric value of a decimal digit character. -/
def digitVal (c : Char) : Option Nat :=
  if '0' ≤ c ∧ c ≤ '9' then some (c.toNat - '0'.toNat) else none

/-- Base-10 value of a digit sequence, `none` on any non-digit. -/
def digitsVal (cs : List Char) : Option Nat :=
  cs.foldl (fun acc c =>
    match acc, digitVal c with
    | some n, some d => some (n * 10 + d)
    | _, _ => none) (some 0)

/-- Python `int(s)` on a string: an optional sign followed by at least one
decimal digit; anything else raises `ValueError`. -/
def pyIntOfStr (s : String) : Option Int :=
  match s.data with
  | [] => none
  | '-' :: rest => if rest.isEmpty then none else (digitsVal rest).map (fun n => -(n : Int))
  | '+' :: rest => if rest.isEmpty then none else (digitsVal rest).map (fun n => (n : Int))
  | cs => (digitsVal cs).map (fun n => (n : Int))

/-- Python `int(v)` on a cell: integers pass through, numeric strings parse,
anything else (`None`/NaN, nested objects, non-numeric text) fails. -/
def pyInt? : Value → Option Int
  | .int n => some n
  | .str s => pyIntOfStr s
  | _ => none

/-- `int(...)` applied to one cell of a row, in place. -/
def coerceCell (c : String) (r : Row) : Except Fault Row :=
  match pyInt? (rowGet r c) with
  | some n => Except.ok (rowSet r c (Value.int n))
  | none => Except.error Fault.valueError

/-- `df[c] = df[c].astype(int)`: `KeyError` when the column is absent,
`ValueError` when some cell is not numeric. -/
def DF.astypeInt (df : DF) (c : String) : Except Fault DF :=
  if c ∈ df.cols then
    match df.rows.mapM (coerceCell c) with
    | .ok rs => .ok { cols := df.cols, rows := rs }
    | .error e => .error e
  else .error (.keyError c)

/-- The row of a projection `df[cs]`: the selected columns in the given
order. -/
def projRow (cs : List String) (r : Row) : Row :=
  cs.map (fun c => (c, rowGet r c))

/-- `df[[c₁, …, cₙ]]`: a fresh DataFrame with exactly those columns in that
order, `KeyError` when one is absent. -/
def DF.select (df : DF) (cs : List String) : Except Fault DF :=
  if ∀ c ∈ cs, c ∈ df.cols then
    .ok { cols := cs, rows := df.rows.map (projRow cs) }
  else .error (.keyError "select")

/-- The lambda of the track branch:
`x.get("name") if isinstance(x, dict) else None`. -/
def artistNameOf : Value → Value
  | .dict m => (m.lookup "name").getD .null
  | _ => .null

/-- The shape-normalization step `transform_global(df, level)`.  The Python
function mutates the caller's DataFrame by column assignments and then
rebinds the local name to a projection, so the embedding returns the pair
(state of the caller's object after the call, returned table). -/
def transform_global (now : String) (df : DF) (level : String) :
    Except Fault (DF × DF) :=
  if df.emptyB then .ok (df, df)
  else if level = "geo_artists" ∨ level = "chart_artists" then
    match df.getCol "name" with
    | .error e => .error e
    | .ok _ =>
      let df1 := df.setColF "artist_name" (fun r => rowGet r "name")
      match df1.astypeInt "listeners" with
      | .error e => .error e
      | .ok df2 =>
        let df3 :=
          if "playcount" ∈ df2.cols then
            df2.setColF "playcount" (fun r => rowGet r "playcount")
          else
            df2.setColF "playcount" (fun _ => Value.null)
        let df4 := df3.setColF "timestamp" (fun _ => Value.str now)
        match df4.select ["artist_name", "listeners", "playcount", "timestamp"] with
        | .error e => .error e
        | .ok out => .ok (df4, out)
  else if level = "geo_tracks" ∨ level = "chart_tracks" then
    match df.getCol "artist" with
    | .error e => .error e
    | .ok _ =>
      let df1 := df.setColF "artist_name" (fun r => artistNameOf (rowGet r "artist"))
      match df1.getCol "name" with
      | .error e => .error e
      | .ok _ =>
        let df2 := df1.setColF "track_name" (fun r => rowGet r "name")
        match df2.astypeInt "listeners" with
        | .error e => .error e
        | .ok df3 =>
          let df4 := df3.setColF "timestamp" (fun _ => Value.str now)
          match df4.select ["artist_name", "track_name", "listeners", "timestamp"] with
          | .error e => .error e
          | .ok out => .ok (df4, out)
  else if level = "chart_tags" then
    match df.getCol "name" with
    | .error e => .error e
    | .ok _ =>
      let df1 := df.setColF "tag_name" (fun r => rowGet r "name")
      match df1.astypeInt "reach" with
      | .error e => .error e
      | .ok df2 =>
        match df2.astypeInt "taggings" with
        | .error e => .error e
        | .ok df3 =>
          let df4 := df3.setColF "timestamp" (fun _ => Value.str now)
          match df4.select ["tag_name", "reach", "taggings", "timestamp"] with
          | .error e => .error e
          | .ok out => .ok (df4, out)
  else .ok (df, df)

/-- `pd.DataFrame(records)` on a list of JSON objects: columns are the keys
in order of first appearance, missing keys become `NaN` (modelled `null`). -/
def recordKeys (recs : List Row) : List String :=
  recs.foldl (fun acc r =>
    r.foldl (fun acc2 kv => if kv.1 ∈ acc2 then acc2 else acc2 ++ [kv.1]) acc) []

/-- Build the DataFrame of a list of records. -/
def mkDF (recs : List Row) : DF :=
  { cols := recordKeys recs,
    rows := recs.map (fun r => projRow (recordKeys recs) r) }

/-- The static method → (outer key, inner key) table of `extract_global`. -/
def key_map : List (String × String × String) :=
  [("geo.gettopartists", ("topartists", "artist")),
   ("geo.gettoptracks", ("tracks", "track")),
   ("chart.gettopartists", ("artists", "artist")),
   ("chart.gettoptracks", ("tracks", "track")),
   ("chart.gettoptags", ("tags", "tag"))]

/-- JSON-navigation part of `extract_global`:
`parent_key, child_key = key_map[method]` (a `KeyError` on an unknown
method) followed by `data.get(parent_key, {}).get(child_key, [])`.
A non-object where `.get` is called raises (`AttributeError`). -/
def extract_records (method : String) (data : Value) : Except Fault (List Value) :=
  match key_map.lookup method with
  | none => .error (.keyError method)
  | some (parentKey, childKey) =>
    match data with
    | .dict fields =>
      match (fields.lookup parentKey).getD (.dict []) with
      | .dict inner =>
        match (inner.lookup childKey).getD (.list []) with
        | .list vs => .ok vs
        | _ => .error .valueError
      | _ => .error .attributeError
    | _ => .error .attributeError

/-- `pd.DataFrame(records)` applied to the extracted list; entries of the
API's record lists are JSON objects (a non-object entry is modelled as a
construction fault, which no claim exercises). -/
def dfOfRecords (vs : List Value) : Except Fault DF :=
  match vs.mapM (fun v =>
      match v with
      | Value.dict m => Except.ok m
      | _ => Except.error Fault.valueError) with
  | .ok recs => .ok (mkDF recs)
  | .error e => .error e

/-- Pure core of `extract_global`: from the parsed JSON body to the
returned DataFrame. -/
def extract_global (method : String) (data : Value) : Except Fault DF :=
  match extract_records method data with
  | .ok vs => dfOfRecords vs
  | .error e => .error e

/-- An HTTP response: `ok = false` makes `raise_for_status()` raise;
`body` is the parsed JSON. -/
structure HttpResp where
  ok : Bool
  body : Value

/-- Outbound I/O performed by the pipeline. -/
inductive Event where
  | httpGet (method : String) (apiKey : Option String) : Event
  | bqCreateClient (project : Option String) : Event
  | bqLoadJob (tableId : String) (nrows : Nat) : Event
  | bqGetTable (tableId : String) : Event
  | pipelineStart (level : String) : Event

/-- `extract_global` with its I/O: the GET is issued unconditionally first
(the api key, present or not, is merely a request parameter), then
`raise_for_status`, then the JSON navigation. -/
def extract_global_run (apiKey : Option String) (fetch : String → HttpResp)
    (method : String) : List Event × Except Fault DF :=
  let resp := fetch method
  ([Event.httpGet method apiKey],
   if resp.ok then extract_global method resp.body else .error .httpError)

/-- How Python renders a possibly-missing configuration value inside an
f-string. -/
def optStr (o : Option String) : String :=
  match o with
  | some s => s
  | none => "None"

/-- `load_to_bigquery(df, table_name)`: nothing at all on an empty table;
otherwise create a client, run the append load job (which may fail, `loadOk`
stands for the warehouse's verdict) and, on success, read the destination's
row count. -/
def load_to_bigquery (projectId dataset : Option String) (loadOk : String → Bool)
    (df : DF) (tableName : String) : List Event × Except Fault Unit :=
  if df.emptyB then ([], .ok ())
  else
    let tableId := optStr projectId ++ "." ++ optStr dataset ++ "." ++ tableName
    if loadOk tableName then
      ([Event.bqCreateClient projectId, Event.bqLoadJob tableId df.rows.length,
        Event.bqGetTable tableId], .ok ())
    else
      ([Event.bqCreateClient projectId, Event.bqLoadJob tableId df.rows.length],
       .error .loadError)

/-- The environment-supplied configuration read at module load. -/
structure Env where
  lastfm_api_key : Option String
  gcp_project_id : Option String
  bq_dataset : Option String
  google_application_credentials : Option String

/-- Module-level initialization: the four `os.getenv` reads never fail, and
the only check-like effect is `os.environ["GOOGLE_APPLICATION_CREDENTIALS"] =
GOOGLE_APPLICATION_CREDENTIALS`, which raises `TypeError` when that value is
`None`; a missing API key, project id or dataset passes through silently. -/
def module_init (env : Env) : Except Fault Env :=
  match env.google_application_credentials with
  | none => .error .typeError
  | some _ => .ok env

/-- The five (method, level, destination table) sub-pipelines of
`etl_global_topdata`, in source order. -/
def pipelines : List (String × String × String) :=
  [("geo.gettopartists", ("geo_artists", "lastfm_geo_top_artists")),
   ("geo.gettoptracks", ("geo_tracks", "lastfm_geo_top_tracks")),
   ("chart.gettopartists", ("chart_artists", "lastfm_chart_top_artists")),
   ("chart.gettoptracks", ("chart_tracks", "lastfm_chart_top_tracks")),
   ("chart.gettoptags", ("chart_tags", "lastfm_chart_top_tags"))]

/-- One fetch → transform → load sequence, with its event trace.  A fault in
any step stops the sequence there and is returned. -/
def runPipeline (env : Env) (fetch : String → HttpResp) (loadOk : String → Bool)
    (now : String) (p : String × String × String) : List Event × Except Fault Unit :=
  let (ev1, r1) := extract_global_run env.lastfm_api_key fetch p.1
  match r1 with
  | .error e => (Event.pipelineStart p.2.1 :: ev1, .error e)
  | .ok df =>
    match transform_global now df p.2.1 with
    | .error e => (Event.pipelineStart p.2.1 :: ev1, .error e)
    | .ok dfs =>
      let (ev2, r2) := load_to_bigquery env.gcp_project_id env.bq_dataset loadOk dfs.2 p.2.2
      (Event.pipelineStart p.2.1 :: ev1 ++ ev2, r2)

/-- Sequencing without any try/except: the first fault aborts the rest. -/
def etlGo (step : String × String × String → List Event × Except Fault Unit) :
    List (String × String × String) → List Event × Except Fault Unit
  | [] => ([], .ok ())
  | p :: ps =>
    let (ev, r) := step p
    match r with
    | .error e => (ev, .error e)
    | .ok _ =>
      let (evs, r2) := etlGo step ps
      (ev ++ evs, r2)

/-- The flow `etl_global_topdata`: the five sub-pipelines in source order. -/
def etl_global_topdata (env : Env) (fetch : String → HttpResp)
    (loadOk : String → Bool) (now : String) : List Event × Except Fault Unit :=
  etlGo (runPipeline env fetch loadOk now) pipelines

/-- The `pipelineStart` markers of a trace, in order. -/
def startsOf (evs : List Event) : List String :=
  evs.filterMap (fun e =>
    match e with
    | Event.pipelineStart l => some l
    | _ => none)

/-! Closed forms of the three non-trivial normalization branches, used to
state and prove the claims.  Each `…MutRow` composes exactly the column
assignments of the corresponding branch, each `…MutDF`/`…Out` the resulting
caller-visible table and returned projection. -/

/-- Output column order of the artist shapes. -/
def artistCols : List String := ["artist_name", "listeners", "playcount", "timestamp"]

/-- Output column order of the track shapes. -/
def trackCols : List String := ["artist_name", "track_name", "listeners", "timestamp"]

/-- Output column order of the tag shape. -/
def tagCols : List String := ["tag_name", "reach", "taggings", "timestamp"]

/-- The integer a cell coerces to (meaningful when `pyInt?` succeeds). -/
def intOfCell (c : String) (r : Row) : Value :=
  Value.int ((pyInt? (rowGet r c)).getD 0)

/-- Effect of the artist branch on one row (`hasPc`: whether the source
table had a `playcount` column). -/
def artistsMutRow (now : String) (hasPc : Bool) (r : Row) : Row :=
  rowSet (rowSet (rowSet (rowSet r "artist_name" (rowGet r "name"))
      "listeners" (intOfCell "listeners" r))
      "playcount" (if hasPc then rowGet r "playcount" else Value.null))
      "timestamp" (Value.str now)

/-- The caller's table after a successful artist-branch call. -/
def artistsMutDF (now : String) (df : DF) : DF :=
  { cols := addCol (addCol (addCol df.cols "artist_name") "playcount") "timestamp",
    rows := df.rows.map (artistsMutRow now (decide ("playcount" ∈ df.cols))) }

/-- The table returned by a successful artist-branch call. -/
def artistsOut (now : String) (df : DF) : DF :=
  { cols := artistCols,
    rows := df.rows.map (fun r =>
      projRow artistCols (artistsMutRow now (decide ("playcount" ∈ df.cols)) r)) }

/-- Effect of the track branch on one row. -/
def tracksMutRow (now : String) (r : Row) : Row :=
  rowSet (rowSet (rowSet (rowSet r "artist_name" (artistNameOf (rowGet r "artist")))
      "track_name" (rowGet r "name"))
      "listeners" (intOfCell "listeners" r))
      "timestamp" (Value.str now)

/-- The caller's table after a successful track-branch call. -/
def tracksMutDF (now : String) (df : DF) : DF :=
  { cols := addCol (addCol (addCol df.cols "artist_name") "track_name") "timestamp",
    rows := df.rows.map (tracksMutRow now) }

/-- The table returned by a successful track-branch call. -/
def tracksOut (now : String) (df : DF) : DF :=
  { cols := trackCols,
    rows := df.rows.map (fun r => projRow trackCols (tracksMutRow now r)) }

/-- Effect of the tag branch on one row. -/
def tagsMutRow (now : String) (r : Row) : Row :=
  rowSet (rowSet (rowSet (rowSet r "tag_name" (rowGet r "name"))
      "reach" (intOfCell "reach" r))
      "taggings" (intOfCell "taggings" r))
      "timestamp" (Value.str now)

/-- The caller's table after a successful tag-branch call. -/
def tagsMutDF (now : String) (df : DF) : DF :=
  { cols := addCol (addCol df.cols "tag_name") "timestamp",
    rows := df.rows.map (tagsMutRow now) }

/-- The table returned by a successful tag-branch call. -/
def tagsOut (now : String) (df : DF) : DF :=
  { cols := tagCols,
    rows := df.rows.map (fun r => projRow tagCols (tagsMutRow now r)) }

/-- What a successful artist-branch call needs from its input. -/
def ArtistsPre (df : DF) : Prop :=
  "name" ∈ df.cols ∧ "listeners" ∈ df.cols ∧
    ∀ r ∈ df.rows, (pyInt? (rowGet r "listeners")).isSome = true

/-- What a successful track-branch call needs from its input. -/
def TracksPre (df : DF) : Prop :=
  "artist" ∈ df.cols ∧ "name" ∈ df.cols ∧ "listeners" ∈ df.cols ∧
    ∀ r ∈ df.rows, (pyInt? (rowGet r "listeners")).isSome = true

/-- The five shape kinds `transform_global` recognizes, in the order the
orchestrator runs them. -/
def knownLevels : List String :=
  ["geo_artists", "geo_tracks", "chart_artists", "chart_tracks", "chart_tags"]

/-- What a successful tag-branch call needs from its input. -/
def TagsPre (df : DF) : Prop :=
  "name" ∈ df.cols ∧ "reach" ∈ df.cols ∧ "taggings" ∈ df.cols ∧
    (∀ r ∈ df.rows, (pyInt? (rowGet r "reach")).isSome = true) ∧
    ∀ r ∈ df.rows, (pyInt? (rowGet r "taggings")).isSome = true

/-! Basic lemmas about the row and table operations. -/

@[simp] theorem pyInt?_int (n : Int) : pyInt? (.int n) = some n := rfl

theorem lookup_filter_ne (r : Row) (c c' : String) (hne : c' ≠ c) :
    (r.filter (fun kv => kv.1 ≠ c)).lookup c' = r.lookup c' := by
  induction r with
  | nil => rfl
  | cons kv t ih =>
    obtain ⟨k, w⟩ := kv
    simp only [decide_not] at ih
    by_cases hk : k = c
    · subst hk
      have hc : (c' == k) = false := by simpa using hne
      simp [List.filter_cons, List.lookup_cons, hc, ih]
    · by_cases hk' : c' = k
      · subst hk'
        simp [List.filter_cons, List.lookup_cons, hk]
      · have hc : (c' == k) = false := by simpa using hk'
        simp [List.filter_cons, List.lookup_cons, hk, hc, ih]

theorem lookup_filter_self (r : Row) (c : String) :
    (r.filter (fun kv => kv.1 ≠ c)).lookup c = none := by
  rw [List.lookup_eq_none_iff]
  intro p hp
  have hne := List.of_mem_filter hp
  simp only [decide_eq_true_eq] at hne
  simpa using fun h => hne h.symm

@[simp] theorem rowGet_rowSet (r : Row) (c c' : String) (v : Value) :
    rowGet (rowSet r c v) c' = if c' = c then v else rowGet r c' := by
  unfold rowGet rowSet
  rw [List.lookup_append]
  by_cases h : c' = c
  · subst h
    rw [lookup_filter_self]
    simp [List.lookup_cons]
  · rw [lookup_filter_ne r c c' h]
    have hc : (c' == c) = false := by simpa using h
    simp [List.lookup_cons, hc, h, Option.or]
    cases r.lookup c' <;> simp

theorem rowGet_projRow (cs : List String) (r : Row) (c : String) :
    rowGet (projRow cs r) c = if c ∈ cs then rowGet r c else .null := by
  induction cs with
  | nil => simp [projRow, rowGet]
  | cons c0 t ih =>
    by_cases h : c = c0
    · subst h
      simp [projRow, rowGet, List.lookup_cons]
    · have hc : (c == c0) = false := by simpa using h
      simp only [projRow, List.map_cons] at ih ⊢
      simp [rowGet, List.lookup_cons, hc, h] at ih ⊢
      exact ih

theorem mem_addCol {cs : List String} {c c' : String} :
    c' ∈ addCol cs c ↔ c' ∈ cs ∨ c' = c := by
  unfold addCol
  by_cases h : c ∈ cs
  · simp only [if_pos h]
    constructor
    · exact Or.inl
    · rintro (h1 | rfl)
      · exact h1
      · exact h
  · simp [if_neg h]

theorem mem_addCol_of {cs : List String} {c c' : String} (h : c' ∈ cs) :
    c' ∈ addCol cs c :=
  mem_addCol.mpr (Or.inl h)

theorem self_mem_addCol (cs : List String) (c : String) : c ∈ addCol cs c :=
  mem_addCol.mpr (Or.inr rfl)

theorem not_mem_addCol {cs : List String} {c c' : String} (h1 : c' ∉ cs) (h2 : c' ≠ c) :
    c' ∉ addCol cs c := by
  rw [mem_addCol]
  rintro (h | h)
  · exact h1 h
  · exact h2 h

theorem addCol_ne_nil (cs : List String) (c : String) : addCol cs c ≠ [] := by
  unfold addCol
  by_cases h : c ∈ cs
  · rw [if_pos h]
    rintro rfl
    simp at h
  · simp [if_neg h]

theorem emptyB_false_iff (df : DF) :
    df.emptyB = false ↔ df.rows ≠ [] ∧ df.cols ≠ [] := by
  cases df with
  | mk cols rows =>
    cases rows <;> cases cols <;> simp [DF.emptyB]

theorem mapM_coerce_ok (c : String) (l : List Row)
    (h : ∀ r ∈ l, (pyInt? (rowGet r c)).isSome = true) :
    l.mapM (coerceCell c) =
      .ok (l.map (fun r => rowSet r c (intOfCell c r))) := by
  induction l with
  | nil => rfl
  | cons r t ih =>
    have hr := h r (by simp)
    obtain ⟨n, hn⟩ := Option.isSome_iff_exists.mp hr
    have hcell : coerceCell c r = .ok (rowSet r c (intOfCell c r)) := by
      simp [coerceCell, intOfCell, hn]
    rw [List.mapM_cons, hcell, ih (fun r hr2 => h r (by simp [hr2]))]
    rfl

theorem mapM_coerce_err (c : String) (l : List Row)
    (h : ∃ r ∈ l, pyInt? (rowGet r c) = none) :
    l.mapM (coerceCell c) = .error .valueError := by
  induction l with
  | nil => simp at h
  | cons r t ih =>
    cases hr : pyInt? (rowGet r c) with
    | none =>
      have hcell : coerceCell c r = .error .valueError := by simp [coerceCell, hr]
      rw [List.mapM_cons, hcell]
      rfl
    | some n =>
      have hcell : coerceCell c r = .ok (rowSet r c (Value.int n)) := by
        simp [coerceCell, hr]
      have ht : ∃ r2 ∈ t, pyInt? (rowGet r2 c) = none := by
        obtain ⟨r2, hm, hnone⟩ := h
        rcases List.mem_cons.mp hm with rfl | hm2
        · rw [hr] at hnone
          exact absurd hnone (by simp)
        · exact ⟨r2, hm2, hnone⟩
      rw [List.mapM_cons, hcell, ih ht]
      rfl

theorem astypeInt_ok (df : DF) (c : String) (hc : c ∈ df.cols)
    (h : ∀ r ∈ df.rows, (pyInt? (rowGet r c)).isSome = true) :
    df.astypeInt c =
      .ok { cols := df.cols,
            rows := df.rows.map (fun r => rowSet r c (intOfCell c r)) } := by
  unfold DF.astypeInt
  rw [if_pos hc, mapM_coerce_ok c df.rows h]

theorem astypeInt_err_notMem (df : DF) (c : String) (hc : c ∉ df.cols) :
    df.astypeInt c = .error (.keyError c) := by
  unfold DF.astypeInt
  rw [if_neg hc]

theorem astypeInt_err_bad (df : DF) (c : String) (hc : c ∈ df.cols)
    (h : ∃ r ∈ df.rows, pyInt? (rowGet r c) = none) :
    df.astypeInt c = .error .valueError := by
  unfold DF.astypeInt
  rw [if_pos hc, mapM_coerce_err c df.rows h]

theorem select_ok (df : DF) (cs : List String) (h : ∀ c ∈ cs, c ∈ df.cols) :
    df.select cs = .ok { cols := cs, rows := df.rows.map (projRow cs) } := by
  unfold DF.select
  rw [if_pos h]

theorem getCol_ok (df : DF) (c : String) (h : c ∈ df.cols) :
    df.getCol c = .ok (df.rows.map (fun r => rowGet r c)) := by
  unfold DF.getCol
  rw [if_pos h]

theorem getCol_err (df : DF) (c : String) (h : c ∉ df.cols) :
    df.getCol c = .error (.keyError c) := by
  unfold DF.getCol
  rw [if_neg h]

/-! Characterization of the three normalization branches. -/

theorem transform_artists_ok (now : String) (df : DF) (level : String)
    (hlv : level = "geo_artists" ∨ level = "chart_artists")
    (hne : df.emptyB = false) (hp : ArtistsPre df) :
    transform_global now df level = .ok (artistsMutDF now df, artistsOut now df) := by
  obtain ⟨hn, hl, hco⟩ := hp
  have hco1 : ∀ r ∈ (df.setColF "artist_name" (fun r => rowGet r "name")).rows,
      (pyInt? (rowGet r "listeners")).isSome = true := by
    intro r1 hr1
    simp only [DF.setColF, List.mem_map] at hr1
    obtain ⟨r, hr, rfl⟩ := hr1
    simpa [rowGet_rowSet] using hco r hr
  unfold transform_global
  rw [hne]
  simp only [Bool.false_eq_true, if_false]
  rw [if_pos hlv]
  rw [getCol_ok df "name" hn]
  dsimp only
  rw [astypeInt_ok (df.setColF "artist_name" (fun r => rowGet r "name")) "listeners"
    (mem_addCol_of hl) hco1]
  dsimp only
  have hsel : ∀ c ∈ (["artist_name", "listeners", "playcount", "timestamp"] : List String),
      c ∈ addCol (addCol (addCol df.cols "artist_name") "playcount") "timestamp" := by
    intro c hc
    simp only [List.mem_cons, List.not_mem_nil, or_false] at hc
    rcases hc with rfl | rfl | rfl | rfl
    · exact mem_addCol_of (mem_addCol_of (self_mem_addCol _ _))
    · exact mem_addCol_of (mem_addCol_of (mem_addCol_of hl))
    · exact mem_addCol_of (self_mem_addCol _ _)
    · exact self_mem_addCol _ _
  by_cases hpc : "playcount" ∈ df.cols
  · rw [if_pos (show "playcount" ∈ (df.setColF "artist_name" fun r => rowGet r "name").cols
      from mem_addCol_of hpc)]
    rw [select_ok _ _ hsel]
    dsimp only
    simp only [Except.ok.injEq, Prod.mk.injEq]
    constructor
    · simp [artistsMutDF, artistsMutRow, DF.setColF, List.map_map, hpc, intOfCell,
        Function.comp]
    · simp [artistsOut, artistsMutRow, artistCols, DF.setColF, List.map_map, hpc,
        intOfCell, Function.comp]
  · rw [if_neg (show "playcount" ∉ (df.setColF "artist_name" fun r => rowGet r "name").cols
      from not_mem_addCol hpc (by decide))]
    rw [select_ok _ _ hsel]
    dsimp only
    simp only [Except.ok.injEq, Prod.mk.injEq]
    constructor
    · simp [artistsMutDF, artistsMutRow, DF.setColF, List.map_map, hpc, intOfCell,
        Function.comp]
    · simp [artistsOut, artistsMutRow, artistCols, DF.setColF, List.map_map, hpc,
        intOfCell, Function.comp]

theorem transform_artists_err_name (now : String) (df : DF) (level : String)
    (hlv : level = "geo_artists" ∨ level = "chart_artists")
    (hne : df.emptyB = false) (hn : "name" ∉ df.cols) :
    transform_global now df level = .error (.keyError "name") := by
  unfold transform_global
  rw [hne]
  simp only [Bool.false_eq_true, if_false]
  rw [if_pos hlv, getCol_err df "name" hn]

theorem transform_artists_err_listeners (now : String) (df : DF) (level : String)
    (hlv : level = "geo_artists" ∨ level = "chart_artists")
    (hne : df.emptyB = false) (hn : "name" ∈ df.cols) (hl : "listeners" ∉ df.cols) :
    transform_global now df level = .error (.keyError "listeners") := by
  unfold transform_global
  rw [hne]
  simp only [Bool.false_eq_true, if_false]
  rw [if_pos hlv, getCol_ok df "name" hn]
  dsimp only
  rw [astypeInt_err_notMem _ "listeners" (not_mem_addCol hl (by decide))]

theorem transform_artists_err_coerce (now : String) (df : DF) (level : String)
    (hlv : level = "geo_artists" ∨ level = "chart_artists")
    (hne : df.emptyB = false) (hn : "name" ∈ df.cols) (hl : "listeners" ∈ df.cols)
    (hbad : ∃ r ∈ df.rows, pyInt? (rowGet r "listeners") = none) :
    transform_global now df level = .error .valueError := by
  unfold transform_global
  rw [hne]
  simp only [Bool.false_eq_true, if_false]
  rw [if_pos hlv, getCol_ok df "name" hn]
  dsimp only
  rw [astypeInt_err_bad _ "listeners" (mem_addCol_of hl) ?_]
  obtain ⟨r, hr, hnone⟩ := hbad
  refine ⟨rowSet r "artist_name" (rowGet r "name"), ?_, ?_⟩
  · simp [DF.setColF]
    exact ⟨r, hr, rfl⟩
  · simpa [rowGet_rowSet] using hnone

theorem transform_artists_inv (now : String) (df : DF) (level : String)
    (p : DF × DF) (hlv : level = "geo_artists" ∨ level = "chart_artists")
    (hne : df.emptyB = false) (h : transform_global now df level = .ok p) :
    ArtistsPre df ∧ p = (artistsMutDF now df, artistsOut now df) := by
  by_cases hn : "name" ∈ df.cols
  · by_cases hl : "listeners" ∈ df.cols
    · by_cases hco : ∀ r ∈ df.rows, (pyInt? (rowGet r "listeners")).isSome = true
      · have heq := transform_artists_ok now df level hlv hne ⟨hn, hl, hco⟩
        rw [heq] at h
        exact ⟨⟨hn, hl, hco⟩, by simpa using h.symm⟩
      · have hbad : ∃ r ∈ df.rows, pyInt? (rowGet r "listeners") = none := by
          push_neg at hco
          obtain ⟨r, hr, hns⟩ := hco
          exact ⟨r, hr, by simpa using hns⟩
        rw [transform_artists_err_coerce now df level hlv hne hn hl hbad] at h
        simp at h
    · rw [transform_artists_err_listeners now df level hlv hne hn hl] at h
      simp at h
  · rw [transform_artists_err_name now df level hlv hne hn] at h
    simp at h

theorem not_artists_of_tracks {level : String}
    (hlv : level = "geo_tracks" ∨ level = "chart_tracks") :
    ¬(level = "geo_artists" ∨ level = "chart_artists") := by
  rcases hlv with rfl | rfl <;> simp

theorem transform_tracks_ok (now : String) (df : DF) (level : String)
    (hlv : level = "geo_tracks" ∨ level = "chart_tracks")
    (hne : df.emptyB = false) (hp : TracksPre df) :
    transform_global now df level = .ok (tracksMutDF now df, tracksOut now df) := by
  obtain ⟨ha, hn, hl, hco⟩ := hp
  unfold transform_global
  rw [hne]
  simp only [Bool.false_eq_true, if_false]
  rw [if_neg (not_artists_of_tracks hlv), if_pos hlv]
  rw [getCol_ok df "artist" ha]
  dsimp only
  rw [getCol_ok _ "name" (mem_addCol_of hn)]
  dsimp only
  have hco2 : ∀ r2 ∈ ((df.setColF "artist_name"
        (fun r => artistNameOf (rowGet r "artist"))).setColF "track_name"
        (fun r => rowGet r "name")).rows,
      (pyInt? (rowGet r2 "listeners")).isSome = true := by
    intro r2 hr2
    simp only [DF.setColF, List.mem_map, List.map_map] at hr2
    obtain ⟨r, hr, rfl⟩ := hr2
    simpa [rowGet_rowSet] using hco r hr
  rw [astypeInt_ok _ "listeners" (mem_addCol_of (mem_addCol_of hl)) hco2]
  dsimp only
  have hsel : ∀ c ∈ (["artist_name", "track_name", "listeners", "timestamp"] : List String),
      c ∈ addCol (addCol (addCol df.cols "artist_name") "track_name") "timestamp" := by
    intro c hc
    simp only [List.mem_cons, List.not_mem_nil, or_false] at hc
    rcases hc with rfl | rfl | rfl | rfl
    · exact mem_addCol_of (mem_addCol_of (self_mem_addCol _ _))
    · exact mem_addCol_of (self_mem_addCol _ _)
    · exact mem_addCol_of (mem_addCol_of (mem_addCol_of hl))
    · exact self_mem_addCol _ _
  rw [select_ok _ _ hsel]
  dsimp only
  simp only [Except.ok.injEq, Prod.mk.injEq]
  constructor
  · simp [tracksMutDF, tracksMutRow, DF.setColF, List.map_map, intOfCell, Function.comp]
  · simp [tracksOut, tracksMutRow, trackCols, DF.setColF, List.map_map, intOfCell,
      Function.comp]

theorem transform_tracks_err_artist (now : String) (df : DF) (level : String)
    (hlv : level = "geo_tracks" ∨ level = "chart_tracks")
    (hne : df.emptyB = false) (ha : "artist" ∉ df.cols) :
    transform_global now df level = .error (.keyError "artist") := by
  unfold transform_global
  rw [hne]
  simp only [Bool.false_eq_true, if_false]
  rw [if_neg (not_artists_of_tracks hlv), if_pos hlv, getCol_err df "artist" ha]

theorem transform_tracks_err_name (now : String) (df : DF) (level : String)
    (hlv : level = "geo_tracks" ∨ level = "chart_tracks")
    (hne : df.emptyB = false) (ha : "artist" ∈ df.cols) (hn : "name" ∉ df.cols) :
    transform_global now df level = .error (.keyError "name") := by
  unfold transform_global
  rw [hne]
  simp only [Bool.false_eq_true, if_false]
  rw [if_neg (not_artists_of_tracks hlv), if_pos hlv, getCol_ok df "artist" ha]
  dsimp only
  rw [getCol_err _ "name" (not_mem_addCol hn (by decide))]

theorem transform_tracks_err_listeners (now : String) (df : DF) (level : String)
    (hlv : level = "geo_tracks" ∨ level = "chart_tracks")
    (hne : df.emptyB = false) (ha : "artist" ∈ df.cols) (hn : "name" ∈ df.cols)
    (hl : "listeners" ∉ df.cols) :
    transform_global now df level = .error (.keyError "listeners") := by
  unfold transform_global
  rw [hne]
  simp only [Bool.false_eq_true, if_false]
  rw [if_neg (not_artists_of_tracks hlv), if_pos hlv, getCol_ok df "artist" ha]
  dsimp only
  rw [getCol_ok _ "name" (mem_addCol_of hn)]
  dsimp only
  rw [astypeInt_err_notMem _ "listeners"
    (not_mem_addCol (not_mem_addCol hl (by decide)) (by decide))]

theorem transform_tracks_err_coerce (now : String) (df : DF) (level : String)
    (hlv : level = "geo_tracks" ∨ level = "chart_tracks")
    (hne : df.emptyB = false) (ha : "artist" ∈ df.cols) (hn : "name" ∈ df.cols)
    (hl : "listeners" ∈ df.cols)
    (hbad : ∃ r ∈ df.rows, pyInt? (rowGet r "listeners") = none) :
    transform_global now df level = .error .valueError := by
  unfold transform_global
  rw [hne]
  simp only [Bool.false_eq_true, if_false]
  rw [if_neg (not_artists_of_tracks hlv), if_pos hlv, getCol_ok df "artist" ha]
  dsimp only
  rw [getCol_ok _ "name" (mem_addCol_of hn)]
  dsimp only
  rw [astypeInt_err_bad _ "listeners" (mem_addCol_of (mem_addCol_of hl)) ?_]
  obtain ⟨r, hr, hnone⟩ := hbad
  refine ⟨rowSet (rowSet r "artist_name" (artistNameOf (rowGet r "artist")))
    "track_name" (rowGet (rowSet r "artist_name" (artistNameOf (rowGet r "artist"))) "name"),
    ?_, ?_⟩
  · simp [DF.setColF, List.map_map]
    exact ⟨r, hr, rfl⟩
  · simpa [rowGet_rowSet] using hnone

theorem transform_tracks_inv (now : String) (df : DF) (level : String)
    (p : DF × DF) (hlv : level = "geo_tracks" ∨ level = "chart_tracks")
    (hne : df.emptyB = false) (h : transform_global now df level = .ok p) :
    TracksPre df ∧ p = (tracksMutDF now df, tracksOut now df) := by
  by_cases ha : "artist" ∈ df.cols
  · by_cases hn : "name" ∈ df.cols
    · by_cases hl : "listeners" ∈ df.cols
      · by_cases hco : ∀ r ∈ df.rows, (pyInt? (rowGet r "listeners")).isSome = true
        · have heq := transform_tracks_ok now df level hlv hne ⟨ha, hn, hl, hco⟩
          rw [heq] at h
          exact ⟨⟨ha, hn, hl, hco⟩, by simpa using h.symm⟩
        · have hbad : ∃ r ∈ df.rows, pyInt? (rowGet r "listeners") = none := by
            push_neg at hco
            obtain ⟨r, hr, hns⟩ := hco
            exact ⟨r, hr, by simpa using hns⟩
          rw [transform_tracks_err_coerce now df level hlv hne ha hn hl hbad] at h
          simp at h
      · rw [transform_tracks_err_listeners now df level hlv hne ha hn hl] at h
        simp at h
    · rw [transform_tracks_err_name now df level hlv hne ha hn] at h
      simp at h
  · rw [transform_tracks_err_artist now df level hlv hne ha] at h
    simp at h

theorem transform_tags_entry (now : String) (df : DF)
    (hne : df.emptyB = false) :
    transform_global now df "chart_tags" =
      (match df.getCol "name" with
       | .error e => .error e
       | .ok _ =>
         let df1 := df.setColF "tag_name" (fun r => rowGet r "name")
         match df1.astypeInt "reach" with
         | .error e => .error e
         | .ok df2 =>
           match df2.astypeInt "taggings" with
           | .error e => .error e
           | .ok df3 =>
             let df4 := df3.setColF "timestamp" (fun _ => Value.str now)
             match df4.select ["tag_name", "reach", "taggings", "timestamp"] with
             | .error e => .error e
             | .ok out => .ok (df4, out)) := by
  unfold transform_global
  rw [hne]
  simp only [Bool.false_eq_true, if_false]
  rw [if_neg (by simp), if_neg (by simp)]
  simp only [if_true]

theorem transform_tags_ok (now : String) (df : DF)
    (hne : df.emptyB = false) (hp : TagsPre df) :
    transform_global now df "chart_tags" = .ok (tagsMutDF now df, tagsOut now df) := by
  obtain ⟨hn, hre, hta, hcor, hcot⟩ := hp
  rw [transform_tags_entry now df hne]
  rw [getCol_ok df "name" hn]
  dsimp only
  have hcor1 : ∀ r1 ∈ (df.setColF "tag_name" (fun r => rowGet r "name")).rows,
      (pyInt? (rowGet r1 "reach")).isSome = true := by
    intro r1 hr1
    simp only [DF.setColF, List.mem_map] at hr1
    obtain ⟨r, hr, rfl⟩ := hr1
    simpa [rowGet_rowSet] using hcor r hr
  rw [astypeInt_ok _ "reach" (mem_addCol_of hre) hcor1]
  dsimp only
  have hcot2 : ∀ r2 ∈ ((df.setColF "tag_name" (fun r => rowGet r "name")).rows.map
        (fun r => rowSet r "reach" (intOfCell "reach" r))),
      (pyInt? (rowGet r2 "taggings")).isSome = true := by
    intro r2 hr2
    simp only [DF.setColF, List.mem_map, List.map_map] at hr2
    obtain ⟨r, hr, rfl⟩ := hr2
    simpa [rowGet_rowSet] using hcot r hr
  rw [astypeInt_ok _ "taggings" (mem_addCol_of hta) hcot2]
  dsimp only
  have hsel : ∀ c ∈ (["tag_name", "reach", "taggings", "timestamp"] : List String),
      c ∈ addCol (addCol df.cols "tag_name") "timestamp" := by
    intro c hc
    simp only [List.mem_cons, List.not_mem_nil, or_false] at hc
    rcases hc with rfl | rfl | rfl | rfl
    · exact mem_addCol_of (self_mem_addCol _ _)
    · exact mem_addCol_of (mem_addCol_of hre)
    · exact mem_addCol_of (mem_addCol_of hta)
    · exact self_mem_addCol _ _
  rw [select_ok _ _ hsel]
  dsimp only
  simp only [Except.ok.injEq, Prod.mk.injEq]
  constructor
  · simp [tagsMutDF, tagsMutRow, DF.setColF, List.map_map, intOfCell, Function.comp]
  · simp [tagsOut, tagsMutRow, tagCols, DF.setColF, List.map_map, intOfCell,
      Function.comp]

theorem transform_tags_err_name (now : String) (df : DF)
    (hne : df.emptyB = false) (hn : "name" ∉ df.cols) :
    transform_global now df "chart_tags" = .error (.keyError "name") := by
  rw [transform_tags_entry now df hne, getCol_err df "name" hn]

theorem transform_tags_err_reach_mem (now : String) (df : DF)
    (hne : df.emptyB = false) (hn : "name" ∈ df.cols) (hre : "reach" ∉ df.cols) :
    transform_global now df "chart_tags" = .error (.keyError "reach") := by
  rw [transform_tags_entry now df hne, getCol_ok df "name" hn]
  dsimp only
  rw [astypeInt_err_notMem _ "reach" (not_mem_addCol hre (by decide))]

theorem transform_tags_err_reach_bad (now : String) (df : DF)
    (hne : df.emptyB = false) (hn : "name" ∈ df.cols) (hre : "reach" ∈ df.cols)
    (hbad : ∃ r ∈ df.rows, pyInt? (rowGet r "reach") = none) :
    transform_global now df "chart_tags" = .error .valueError := by
  rw [transform_tags_entry now df hne, getCol_ok df "name" hn]
  dsimp only
  rw [astypeInt_err_bad _ "reach" (mem_addCol_of hre) ?_]
  obtain ⟨r, hr, hnone⟩ := hbad
  refine ⟨rowSet r "tag_name" (rowGet r "name"), ?_, ?_⟩
  · simp [DF.setColF]
    exact ⟨r, hr, rfl⟩
  · simpa [rowGet_rowSet] using hnone

theorem transform_tags_err_taggings_mem (now : String) (df : DF)
    (hne : df.emptyB = false) (hn : "name" ∈ df.cols) (hre : "reach" ∈ df.cols)
    (hcor : ∀ r ∈ df.rows, (pyInt? (rowGet r "reach")).isSome = true)
    (hta : "taggings" ∉ df.cols) :
    transform_global now df "chart_tags" = .error (.keyError "taggings") := by
  rw [transform_tags_entry now df hne, getCol_ok df "name" hn]
  dsimp only
  have hcor1 : ∀ r1 ∈ (df.setColF "tag_name" (fun r => rowGet r "name")).rows,
      (pyInt? (rowGet r1 "reach")).isSome = true := by
    intro r1 hr1
    simp only [DF.setColF, List.mem_map] at hr1
    obtain ⟨r, hr, rfl⟩ := hr1
    simpa [rowGet_rowSet] using hcor r hr
  rw [astypeInt_ok _ "reach" (mem_addCol_of hre) hcor1]
  dsimp only
  rw [astypeInt_err_notMem _ "taggings" (not_mem_addCol hta (by decide))]

theorem transform_tags_err_taggings_bad (now : String) (df : DF)
    (hne : df.emptyB = false) (hn : "name" ∈ df.cols) (hre : "reach" ∈ df.cols)
    (hcor : ∀ r ∈ df.rows, (pyInt? (rowGet r "reach")).isSome = true)
    (hta : "taggings" ∈ df.cols)
    (hbad : ∃ r ∈ df.rows, pyInt? (rowGet r "taggings") = none) :
    transform_global now df "chart_tags" = .error .valueError := by
  rw [transform_tags_entry now df hne, getCol_ok df "name" hn]
  dsimp only
  have hcor1 : ∀ r1 ∈ (df.setColF "tag_name" (fun r => rowGet r "name")).rows,
      (pyInt? (rowGet r1 "reach")).isSome = true := by
    intro r1 hr1
    simp only [DF.setColF, List.mem_map] at hr1
    obtain ⟨r, hr, rfl⟩ := hr1
    simpa [rowGet_rowSet] using hcor r hr
  rw [astypeInt_ok _ "reach" (mem_addCol_of hre) hcor1]
  dsimp only
  rw [astypeInt_err_bad _ "taggings" (mem_addCol_of hta) ?_]
  obtain ⟨r, hr, hnone⟩ := hbad
  refine ⟨rowSet (rowSet r "tag_name" (rowGet r "name")) "reach"
    (intOfCell "reach" (rowSet r "tag_name" (rowGet r "name"))), ?_, ?_⟩
  · simp [DF.setColF, List.map_map]
    exact ⟨r, hr, rfl⟩
  · simpa [rowGet_rowSet] using hnone

theorem transform_tags_inv (now : String) (df : DF) (p : DF × DF)
    (hne : df.emptyB = false) (h : transform_global now df "chart_tags" = .ok p) :
    TagsPre df ∧ p = (tagsMutDF now df, tagsOut now df) := by
  by_cases hn : "name" ∈ df.cols
  · by_cases hre : "reach" ∈ df.cols
    · by_cases hcor : ∀ r ∈ df.rows, (pyInt? (rowGet r "reach")).isSome = true
      · by_cases hta : "taggings" ∈ df.cols
        · by_cases hcot : ∀ r ∈ df.rows, (pyInt? (rowGet r "taggings")).isSome = true
          · have heq := transform_tags_ok now df hne ⟨hn, hre, hta, hcor, hcot⟩
            rw [heq] at h
            exact ⟨⟨hn, hre, hta, hcor, hcot⟩, by simpa using h.symm⟩
          · have hbad : ∃ r ∈ df.rows, pyInt? (rowGet r "taggings") = none := by
              push_neg at hcot
              obtain ⟨r, hr, hns⟩ := hcot
              exact ⟨r, hr, by simpa using hns⟩
            rw [transform_tags_err_taggings_bad now df hne hn hre hcor hta hbad] at h
            simp at h
        · rw [transform_tags_err_taggings_mem now df hne hn hre hcor hta] at h
          simp at h
      · have hbad : ∃ r ∈ df.rows, pyInt? (rowGet r "reach") = none := by
          push_neg at hcor
          obtain ⟨r, hr, hns⟩ := hcor
          exact ⟨r, hr, by simpa using hns⟩
        rw [transform_tags_err_reach_bad now df hne hn hre hbad] at h
        simp at h
    · rw [transform_tags_err_reach_mem now df hne hn hre] at h
      simp at h
  · rw [transform_tags_err_name now df hne hn] at h
    simp at h

theorem transform_empty (now : String) (df : DF) (level : String)
    (h : df.emptyB = true) :
    transform_global now df level = .ok (df, df) := by
  unfold transform_global
  rw [h]
  rfl

theorem transform_unknown (now : String) (df : DF) (level : String)
    (hne : df.emptyB = false)
    (h1 : ¬(level = "geo_artists" ∨ level = "chart_artists"))
    (h2 : ¬(level = "geo_tracks" ∨ level = "chart_tracks"))
    (h3 : level ≠ "chart_tags") :
    transform_global now df level = .ok (df, df) := by
  unfold transform_global
  rw [hne]
  simp only [Bool.false_eq_true, if_false]
  rw [if_neg h1, if_neg h2, if_neg h3]

/-! The claims. -/

/-- Claim C1: for every non-empty artist-shape input (kinds `geo_artists` or
`chart_artists`, with the fields the branch reads present and `listeners`
numeric), `transform_global` returns a table whose columns are exactly
(artist_name, listeners, playcount, timestamp) in that order, `listeners` is
an integer in every row, `timestamp` carries the same value `now` in every
row, and `playcount` is null whenever the source table had no `playcount`
column; in particular the single raw record `{name: "X", listeners: "10"}`
normalizes to the row `("X", 10, None, <ts>)`. -/
theorem claim_C1 (now : String) (df : DF) (level : String)
    (hlv : level = "geo_artists" ∨ level = "chart_artists")
    (hne : df.emptyB = false)
    (hn : "name" ∈ df.cols) (hl : "listeners" ∈ df.cols)
    (hco : ∀ r ∈ df.rows, (pyInt? (rowGet r "listeners")).isSome = true) :
    ∃ mt out, transform_global now df level = .ok (mt, out) ∧
      out.cols = ["artist_name", "listeners", "playcount", "timestamp"] ∧
      (∀ r ∈ out.rows, ∃ n : Int, rowGet r "listeners" = .int n) ∧
      (∀ r ∈ out.rows, rowGet r "timestamp" = .str now) ∧
      ("playcount" ∉ df.cols → ∀ r ∈ out.rows, rowGet r "playcount" = .null) ∧
      (∀ now2 : String,
        transform_global now2 (mkDF [[("name", .str "X"), ("listeners", .str "10")]])
            "geo_artists" =
          .ok ({ cols := ["name", "listeners", "artist_name", "playcount", "timestamp"],
                 rows := [[("name", .str "X"), ("artist_name", .str "X"),
                           ("listeners", .int 10), ("playcount", .null),
                           ("timestamp", .str now2)]] },
               { cols := ["artist_name", "listeners", "playcount", "timestamp"],
                 rows := [[("artist_name", .str "X"), ("listeners", .int 10),
                           ("playcount", .null), ("timestamp", .str now2)]] })) := by
  refine ⟨artistsMutDF now df, artistsOut now df,
    transform_artists_ok now df level hlv hne ⟨hn, hl, hco⟩, rfl, ?_, ?_, ?_,
    fun now2 => rfl⟩
  · intro r hr
    simp only [artistsOut, List.mem_map] at hr
    obtain ⟨r0, _, rfl⟩ := hr
    refine ⟨(pyInt? (rowGet r0 "listeners")).getD 0, ?_⟩
    simp [rowGet_projRow, artistCols, artistsMutRow, intOfCell]
  · intro r hr
    simp only [artistsOut, List.mem_map] at hr
    obtain ⟨r0, _, rfl⟩ := hr
    simp [rowGet_projRow, artistCols, artistsMutRow]
  · intro hpc r hr
    simp only [artistsOut, List.mem_map] at hr
    obtain ⟨r0, _, rfl⟩ := hr
    simp [rowGet_projRow, artistCols, artistsMutRow, hpc]

/-- Witness for C1 at the single raw record of end-to-end scenario A. -/
theorem claim_C1_witness :
    ∃ mt out,
      transform_global "ts" (mkDF [[("name", .str "X"), ("listeners", .str "10")]])
          "geo_artists" = .ok (mt, out) ∧
      out.cols = ["artist_name", "listeners", "playcount", "timestamp"] := by
  obtain ⟨mt, out, h1, h2, _⟩ :=
    claim_C1 "ts" (mkDF [[("name", .str "X"), ("listeners", .str "10")]])
      "geo_artists" (Or.inl rfl) (by decide) (by decide) (by decide) (by decide)
  exact ⟨mt, out, h1, h2⟩

/-- Claim C2: for every shape kind, normalizing an empty table returns the
table unchanged (no fault, no timestamp, no columns), and loading an empty
table performs no warehouse call at all and returns without error. -/
theorem claim_C2 (now : String) (df : DF) (level : String)
    (projectId dataset : Option String) (loadOk : String → Bool) (tableName : String)
    (h : df.emptyB = true) :
    transform_global now df level = .ok (df, df) ∧
    load_to_bigquery projectId dataset loadOk df tableName = ([], .ok ()) := by
  constructor
  · exact transform_empty now df level h
  · unfold load_to_bigquery
    rw [h]
    rfl

/-- Witness for C2 at the empty table. -/
theorem claim_C2_witness :
    transform_global "ts" ⟨[], []⟩ "chart_tags" = .ok (⟨[], []⟩, ⟨[], []⟩) ∧
    load_to_bigquery (some "proj") (some "ds") (fun _ => true) ⟨[], []⟩ "tbl" =
      ([], .ok ()) :=
  claim_C2 "ts" ⟨[], []⟩ "chart_tags" (some "proj") (some "ds") (fun _ => true)
    "tbl" rfl

/-- Claim C3: for every non-empty track-shape input (kinds `geo_tracks` or
`chart_tracks`, with the fields the branch reads present and `listeners`
numeric), `transform_global` succeeds and sets `artist_name` in each output
row to the nested `name` sub-field of the source `artist` field when that
field is a mapping and to null otherwise; in particular a record whose
`artist` is a plain string normalizes without fault and with a null
`artist_name`. -/
theorem claim_C3 (now : String) (df : DF) (level : String)
    (hlv : level = "geo_tracks" ∨ level = "chart_tracks")
    (hne : df.emptyB = false)
    (ha : "artist" ∈ df.cols) (hn : "name" ∈ df.cols) (hl : "listeners" ∈ df.cols)
    (hco : ∀ r ∈ df.rows, (pyInt? (rowGet r "listeners")).isSome = true) :
    ∃ mt out, transform_global now df level = .ok (mt, out) ∧
      List.Forall₂
        (fun r outr => rowGet outr "artist_name" = artistNameOf (rowGet r "artist"))
        df.rows out.rows ∧
      (∀ now2 : String, ∃ q : DF × DF,
        transform_global now2
            (mkDF [[("name", .str "T"), ("artist", .str "plain"),
              ("listeners", .str "3")]]) "geo_tracks" = .ok q ∧
        ∀ r ∈ q.2.rows, rowGet r "artist_name" = .null) := by
  refine ⟨tracksMutDF now df, tracksOut now df,
    transform_tracks_ok now df level hlv hne ⟨ha, hn, hl, hco⟩, ?_, ?_⟩
  · simp only [tracksOut]
    rw [List.forall₂_map_right_iff, List.forall₂_same]
    intro r _
    simp [rowGet_projRow, trackCols, tracksMutRow]
  · intro now2
    refine ⟨({ cols := ["name", "artist", "listeners", "artist_name", "track_name",
                 "timestamp"],
               rows := [[("name", .str "T"), ("artist", .str "plain"),
                 ("artist_name", .null), ("track_name", .str "T"),
                 ("listeners", .int 3), ("timestamp", .str now2)]] },
             { cols := ["artist_name", "track_name", "listeners", "timestamp"],
               rows := [[("artist_name", .null), ("track_name", .str "T"),
                 ("listeners", .int 3), ("timestamp", .str now2)]] }), rfl, ?_⟩
    intro r hr
    simp only [List.mem_singleton] at hr
    subst hr
    rfl

/-- Witness for C3 at end-to-end scenario C (a track record whose `artist`
field is a plain string). -/
theorem claim_C3_witness :
    ∃ mt out,
      transform_global "ts"
          (mkDF [[("name", .str "T"), ("artist", .str "plain"),
            ("listeners", .str "3")]]) "geo_tracks" = .ok (mt, out) ∧
      List.Forall₂
        (fun r outr => rowGet outr "artist_name" = artistNameOf (rowGet r "artist"))
        (mkDF [[("name", .str "T"), ("artist", .str "plain"),
          ("listeners", .str "3")]]).rows out.rows := by
  obtain ⟨mt, out, h1, h2, _⟩ :=
    claim_C3 "ts"
      (mkDF [[("name", .str "T"), ("artist", .str "plain"), ("listeners", .str "3")]])
      "geo_tracks" (Or.inl rfl) (by decide) (by decide) (by decide) (by decide)
      (by decide)
  exact ⟨mt, out, h1, h2⟩

/-- Claim C4: for every non-empty tag-shape input on which `transform_global`
succeeds, the output columns are exactly (tag_name, reach, taggings,
timestamp) and `reach`/`taggings` are integers in every row; success forces
the source fields `name`, `reach`, `taggings` to be present and numeric, so
a missing field or non-numeric text raises a fault — as the two concrete
faulting inputs illustrate. -/
theorem claim_C4 (now : String) (df : DF) (mt out : DF)
    (hne : df.emptyB = false)
    (h : transform_global now df "chart_tags" = .ok (mt, out)) :
    out.cols = ["tag_name", "reach", "taggings", "timestamp"] ∧
    (∀ r ∈ out.rows,
      (∃ n : Int, rowGet r "reach" = .int n) ∧
      ∃ m : Int, rowGet r "taggings" = .int m) ∧
    "name" ∈ df.cols ∧ "reach" ∈ df.cols ∧ "taggings" ∈ df.cols ∧
    (∀ r ∈ df.rows,
      (pyInt? (rowGet r "reach")).isSome = true ∧
      (pyInt? (rowGet r "taggings")).isSome = true) ∧
    transform_global "T"
        (mkDF [[("name", .str "rock"), ("reach", .str "5"), ("taggings", .str "abc")]])
        "chart_tags" = .error .valueError ∧
    transform_global "T" (mkDF [[("name", .str "rock"), ("reach", .str "5")]])
        "chart_tags" = .error (.keyError "taggings") := by
  obtain ⟨⟨hn, hre, hta, hcor, hcot⟩, heq⟩ := transform_tags_inv now df (mt, out) hne h
  rw [Prod.mk.injEq] at heq
  obtain ⟨h1, h2⟩ := heq
  subst h1
  subst h2
  refine ⟨rfl, ?_, hn, hre, hta, fun r hr => ⟨hcor r hr, hcot r hr⟩, rfl, rfl⟩
  intro r hr
  simp only [tagsOut, List.mem_map] at hr
  obtain ⟨r0, _, rfl⟩ := hr
  constructor
  · exact ⟨(pyInt? (rowGet r0 "reach")).getD 0,
      by simp [rowGet_projRow, tagCols, tagsMutRow, intOfCell]⟩
  · exact ⟨(pyInt? (rowGet r0 "taggings")).getD 0,
      by simp [rowGet_projRow, tagCols, tagsMutRow, intOfCell]⟩

/-- Witness for C4 at a well-formed one-row tag table. -/
theorem claim_C4_witness :
    (tagsOut "T"
        (mkDF [[("name", .str "rock"), ("reach", .str "5"), ("taggings", .str "7")]])).cols
      = ["tag_name", "reach", "taggings", "timestamp"] ∧
    "reach" ∈ (mkDF [[("name", .str "rock"), ("reach", .str "5"),
      ("taggings", .str "7")]]).cols := by
  obtain ⟨h1, _, _, h2, _⟩ :=
    claim_C4 "T"
      (mkDF [[("name", .str "rock"), ("reach", .str "5"), ("taggings", .str "7")]])
      (tagsMutDF "T"
        (mkDF [[("name", .str "rock"), ("reach", .str "5"), ("taggings", .str "7")]]))
      (tagsOut "T"
        (mkDF [[("name", .str "rock"), ("reach", .str "5"), ("taggings", .str "7")]]))
      (by decide) rfl
  exact ⟨h1, h2⟩

/-- Claim C10: on a non-empty table with a shape-kind string outside the five
known kinds, `transform_global` returns the input unchanged: no fault, no
timestamp column, no projection. -/
theorem claim_C10 (now : String) (df : DF) (level : String)
    (hne : df.emptyB = false) (hk : level ∉ knownLevels) :
    transform_global now df level = .ok (df, df) := by
  simp only [knownLevels, List.mem_cons, List.not_mem_nil, or_false, not_or] at hk
  obtain ⟨h1, h2, h3, h4, h5⟩ := hk
  exact transform_unknown now df level hne (by tauto) (by tauto) h5

/-- Witness for C10 at a one-row table and the unknown kind "global_artists". -/
theorem claim_C10_witness :
    transform_global "ts" (mkDF [[("name", .str "X")]]) "global_artists" =
      .ok (mkDF [[("name", .str "X")]], mkDF [[("name", .str "X")]]) :=
  claim_C10 "ts" (mkDF [[("name", .str "X")]]) "global_artists" (by decide)
    (by decide)

/-- Claim C7: for every raw table and shape kind, when normalization succeeds
a second normalization of the (possibly mutated) table succeeds as well and
produces the same returned rows column-for-column except for `timestamp`. -/
theorem claim_C7 (now1 now2 : String) (df : DF) (level : String) (mt1 out1 : DF)
    (h : transform_global now1 df level = .ok (mt1, out1)) :
    ∃ mt2 out2, transform_global now2 mt1 level = .ok (mt2, out2) ∧
      out1.cols = out2.cols ∧
      List.Forall₂ (fun r1 r2 => ∀ c, c ≠ "timestamp" → rowGet r1 c = rowGet r2 c)
        out1.rows out2.rows := by
  by_cases hemp : df.emptyB = true
  · rw [transform_empty now1 df level hemp] at h
    have hpair : df = mt1 ∧ df = out1 := by simpa using h
    obtain ⟨e1, e2⟩ := hpair
    subst e1
    subst e2
    refine ⟨df, df, transform_empty now2 df level hemp, rfl, ?_⟩
    rw [List.forall₂_same]
    exact fun r _ c _ => rfl
  · have hne : df.emptyB = false := by simpa using hemp
    obtain ⟨hrne, hcne⟩ := (emptyB_false_iff df).mp hne
    by_cases h1 : level = "geo_artists" ∨ level = "chart_artists"
    · obtain ⟨⟨hn, hl, hco⟩, heq⟩ := transform_artists_inv now1 df level (mt1, out1) h1 hne h
      rw [Prod.mk.injEq] at heq
      obtain ⟨e1, e2⟩ := heq
      subst e1
      subst e2
      have hne2 : (artistsMutDF now1 df).emptyB = false := by
        rw [emptyB_false_iff]
        refine ⟨?_, addCol_ne_nil _ _⟩
        simpa [artistsMutDF] using hrne
      have hpre2 : ArtistsPre (artistsMutDF now1 df) := by
        refine ⟨mem_addCol_of (mem_addCol_of (mem_addCol_of hn)),
          mem_addCol_of (mem_addCol_of (mem_addCol_of hl)), ?_⟩
        intro r hr
        simp only [artistsMutDF, List.mem_map] at hr
        obtain ⟨r0, _, rfl⟩ := hr
        simp [artistsMutRow, intOfCell]
      refine ⟨_, _, transform_artists_ok now2 _ level h1 hne2 hpre2, rfl, ?_⟩
      have hpc2 : "playcount" ∈ addCol (addCol (addCol df.cols "artist_name")
          "playcount") "timestamp" := mem_addCol_of (self_mem_addCol _ _)
      simp only [artistsOut, artistsMutDF, List.map_map]
      rw [List.forall₂_map_left_iff, List.forall₂_map_right_iff, List.forall₂_same]
      intro r _ c hcts
      by_cases hcm : c ∈ artistCols
      · simp only [artistCols, List.mem_cons, List.not_mem_nil, or_false] at hcm
        rcases hcm with rfl | rfl | rfl | rfl
        · simp [rowGet_projRow, artistCols, artistsMutRow, intOfCell, Function.comp]
        · simp [rowGet_projRow, artistCols, artistsMutRow, intOfCell, Function.comp]
        · simp [rowGet_projRow, artistCols, artistsMutRow, intOfCell, Function.comp,
            hpc2]
        · exact absurd rfl hcts
      · simp [rowGet_projRow, artistCols, Function.comp,
          (by simpa [artistCols] using hcm : ¬(c = "artist_name" ∨ c = "listeners" ∨
            c = "playcount" ∨ c = "timestamp"))]
    · by_cases h2 : level = "geo_tracks" ∨ level = "chart_tracks"
      · obtain ⟨⟨ha, hn, hl, hco⟩, heq⟩ :=
          transform_tracks_inv now1 df level (mt1, out1) h2 hne h
        rw [Prod.mk.injEq] at heq
        obtain ⟨e1, e2⟩ := heq
        subst e1
        subst e2
        have hne2 : (tracksMutDF now1 df).emptyB = false := by
          rw [emptyB_false_iff]
          refine ⟨?_, addCol_ne_nil _ _⟩
          simpa [tracksMutDF] using hrne
        have hpre2 : TracksPre (tracksMutDF now1 df) := by
          refine ⟨mem_addCol_of (mem_addCol_of (mem_addCol_of ha)),
            mem_addCol_of (mem_addCol_of (mem_addCol_of hn)),
            mem_addCol_of (mem_addCol_of (mem_addCol_of hl)), ?_⟩
          intro r hr
          simp only [tracksMutDF, List.mem_map] at hr
          obtain ⟨r0, _, rfl⟩ := hr
          simp [tracksMutRow, intOfCell]
        refine ⟨_, _, transform_tracks_ok now2 _ level h2 hne2 hpre2, rfl, ?_⟩
        simp only [tracksOut, tracksMutDF, List.map_map]
        rw [List.forall₂_map_left_iff, List.forall₂_map_right_iff, List.forall₂_same]
        intro r _ c hcts
        by_cases hcm : c ∈ trackCols
        · simp only [trackCols, List.mem_cons, List.not_mem_nil, or_false] at hcm
          rcases hcm with rfl | rfl | rfl | rfl
          · simp [rowGet_projRow, trackCols, tracksMutRow, intOfCell, Function.comp]
          · simp [rowGet_projRow, trackCols, tracksMutRow, intOfCell, Function.comp]
          · simp [rowGet_projRow, trackCols, tracksMutRow, intOfCell, Function.comp]
          · exact absurd rfl hcts
        · simp [rowGet_projRow, trackCols, Function.comp,
            (by simpa [trackCols] using hcm : ¬(c = "artist_name" ∨ c = "track_name" ∨
              c = "listeners" ∨ c = "timestamp"))]
      · by_cases h3 : level = "chart_tags"
        · subst h3
          obtain ⟨⟨hn, hre, hta, hcor, hcot⟩, heq⟩ :=
            transform_tags_inv now1 df (mt1, out1) hne h
          rw [Prod.mk.injEq] at heq
          obtain ⟨e1, e2⟩ := heq
          subst e1
          subst e2
          have hne2 : (tagsMutDF now1 df).emptyB = false := by
            rw [emptyB_false_iff]
            refine ⟨?_, addCol_ne_nil _ _⟩
            simpa [tagsMutDF] using hrne
          have hpre2 : TagsPre (tagsMutDF now1 df) := by
            refine ⟨mem_addCol_of (mem_addCol_of hn),
              mem_addCol_of (mem_addCol_of hre),
              mem_addCol_of (mem_addCol_of hta), ?_, ?_⟩ <;>
            · intro r hr
              simp only [tagsMutDF, List.mem_map] at hr
              obtain ⟨r0, _, rfl⟩ := hr
              simp [tagsMutRow, intOfCell]
          refine ⟨_, _, transform_tags_ok now2 _ hne2 hpre2, rfl, ?_⟩
          simp only [tagsOut, tagsMutDF, List.map_map]
          rw [List.forall₂_map_left_iff, List.forall₂_map_right_iff, List.forall₂_same]
          intro r _ c hcts
          by_cases hcm : c ∈ tagCols
          · simp only [tagCols, List.mem_cons, List.not_mem_nil, or_false] at hcm
            rcases hcm with rfl | rfl | rfl | rfl
            · simp [rowGet_projRow, tagCols, tagsMutRow, intOfCell, Function.comp]
            · simp [rowGet_projRow, tagCols, tagsMutRow, intOfCell, Function.comp]
            · simp [rowGet_projRow, tagCols, tagsMutRow, intOfCell, Function.comp]
            · exact absurd rfl hcts
          · simp [rowGet_projRow, tagCols, Function.comp,
              (by simpa [tagCols] using hcm : ¬(c = "tag_name" ∨ c = "reach" ∨
                c = "taggings" ∨ c = "timestamp"))]
        · rw [transform_unknown now1 df level hne h1 h2 h3] at h
          have hpair : df = mt1 ∧ df = out1 := by simpa using h
          obtain ⟨e1, e2⟩ := hpair
          subst e1
          subst e2
          refine ⟨df, df, transform_unknown now2 df level hne h1 h2 h3, rfl, ?_⟩
          rw [List.forall₂_same]
          exact fun r _ c _ => rfl

/-- Witness for C7: renormalizing scenario A's mutated table reproduces the
rows up to the timestamp. -/
theorem claim_C7_witness :
    ∃ mt2 out2,
      transform_global "t2"
          (artistsMutDF "t1" (mkDF [[("name", .str "X"), ("listeners", .str "10")]]))
          "geo_artists" = .ok (mt2, out2) ∧
      (artistsOut "t1" (mkDF [[("name", .str "X"), ("listeners", .str "10")]])).cols
        = out2.cols := by
  obtain ⟨mt2, out2, ha, hb, _⟩ :=
    claim_C7 "t1" "t2" (mkDF [[("name", .str "X"), ("listeners", .str "10")]])
      "geo_artists"
      (artistsMutDF "t1" (mkDF [[("name", .str "X"), ("listeners", .str "10")]]))
      (artistsOut "t1" (mkDF [[("name", .str "X"), ("listeners", .str "10")]]))
      rfl
  exact ⟨mt2, out2, ha, hb⟩

/-- Claim C9: a successful normalization of a non-empty table of a known
shape kind leaves the caller's table object with all its original columns
plus the derived ones (`artist_name`/`track_name`/`tag_name`, `playcount`
for artist shapes, `timestamp`, and integer-coerced numeric fields), while
the returned value is a fresh projection onto the fixed column set. -/
theorem claim_C9 (now : String) (df : DF) (level : String) (mt out : DF)
    (hne : df.emptyB = false) (hk : level ∈ knownLevels)
    (h : transform_global now df level = .ok (mt, out)) :
    (∀ c ∈ df.cols, c ∈ mt.cols) ∧
    "timestamp" ∈ mt.cols ∧
    ((level = "geo_artists" ∨ level = "chart_artists") →
      "artist_name" ∈ mt.cols ∧ "playcount" ∈ mt.cols ∧
      (∀ r ∈ mt.rows, ∃ n : Int, rowGet r "listeners" = .int n) ∧
      out.cols = artistCols) ∧
    ((level = "geo_tracks" ∨ level = "chart_tracks") →
      "artist_name" ∈ mt.cols ∧ "track_name" ∈ mt.cols ∧
      (∀ r ∈ mt.rows, ∃ n : Int, rowGet r "listeners" = .int n) ∧
      out.cols = trackCols) ∧
    (level = "chart_tags" →
      "tag_name" ∈ mt.cols ∧
      (∀ r ∈ mt.rows,
        (∃ n : Int, rowGet r "reach" = .int n) ∧
        ∃ m : Int, rowGet r "taggings" = .int m) ∧
      out.cols = tagCols) := by
  by_cases h1 : level = "geo_artists" ∨ level = "chart_artists"
  · obtain ⟨⟨hn, hl, hco⟩, heq⟩ := transform_artists_inv now df level (mt, out) h1 hne h
    rw [Prod.mk.injEq] at heq
    obtain ⟨e1, e2⟩ := heq
    subst e1
    subst e2
    have hnt : ¬(level = "geo_tracks" ∨ level = "chart_tracks") := by
      rcases h1 with rfl | rfl <;> decide
    have hng : level ≠ "chart_tags" := by
      rcases h1 with rfl | rfl <;> decide
    refine ⟨fun c hc => mem_addCol_of (mem_addCol_of (mem_addCol_of hc)),
      self_mem_addCol _ _,
      fun _ => ⟨mem_addCol_of (mem_addCol_of (self_mem_addCol _ _)),
        mem_addCol_of (self_mem_addCol _ _), ?_, rfl⟩,
      fun hc => absurd hc hnt,
      fun hc => absurd hc hng⟩
    intro r hr
    simp only [artistsMutDF, List.mem_map] at hr
    obtain ⟨r0, _, rfl⟩ := hr
    exact ⟨(pyInt? (rowGet r0 "listeners")).getD 0, by simp [artistsMutRow, intOfCell]⟩
  · by_cases h2 : level = "geo_tracks" ∨ level = "chart_tracks"
    · obtain ⟨⟨ha, hn, hl, hco⟩, heq⟩ :=
        transform_tracks_inv now df level (mt, out) h2 hne h
      rw [Prod.mk.injEq] at heq
      obtain ⟨e1, e2⟩ := heq
      subst e1
      subst e2
      have hng : level ≠ "chart_tags" := by
        rcases h2 with rfl | rfl <;> decide
      refine ⟨fun c hc => mem_addCol_of (mem_addCol_of (mem_addCol_of hc)),
        self_mem_addCol _ _,
        fun hc => absurd hc h1,
        fun _ => ⟨mem_addCol_of (mem_addCol_of (self_mem_addCol _ _)),
          mem_addCol_of (self_mem_addCol _ _), ?_, rfl⟩,
        fun hc => absurd hc hng⟩
      intro r hr
      simp only [tracksMutDF, List.mem_map] at hr
      obtain ⟨r0, _, rfl⟩ := hr
      exact ⟨(pyInt? (rowGet r0 "listeners")).getD 0, by simp [tracksMutRow, intOfCell]⟩
    · by_cases h3 : level = "chart_tags"
      · subst h3
        obtain ⟨⟨hn, hre, hta, hcor, hcot⟩, heq⟩ :=
          transform_tags_inv now df (mt, out) hne h
        rw [Prod.mk.injEq] at heq
        obtain ⟨e1, e2⟩ := heq
        subst e1
        subst e2
        refine ⟨fun c hc => mem_addCol_of (mem_addCol_of hc),
          self_mem_addCol _ _,
          fun hc => absurd hc h1,
          fun hc => absurd hc h2,
          fun _ => ⟨mem_addCol_of (self_mem_addCol _ _), ?_, rfl⟩⟩
        intro r hr
        simp only [tagsMutDF, List.mem_map] at hr
        obtain ⟨r0, _, rfl⟩ := hr
        constructor
        · exact ⟨(pyInt? (rowGet r0 "reach")).getD 0, by simp [tagsMutRow, intOfCell]⟩
        · exact ⟨(pyInt? (rowGet r0 "taggings")).getD 0,
            by simp [tagsMutRow, intOfCell]⟩
      · exfalso
        have hk5 : level = "geo_artists" ∨ level = "geo_tracks" ∨
            level = "chart_artists" ∨ level = "chart_tracks" ∨
            level = "chart_tags" := by simpa [knownLevels] using hk
        rcases hk5 with rfl | rfl | rfl | rfl | rfl
        · exact h1 (Or.inl rfl)
        · exact h2 (Or.inl rfl)
        · exact h1 (Or.inr rfl)
        · exact h2 (Or.inr rfl)
        · exact h3 rfl

/-- Witness for C9 at scenario A's one-row artist table. -/
theorem claim_C9_witness :
    "timestamp" ∈ (artistsMutDF "T" (mkDF [[("name", .str "X"),
      ("listeners", .str "10")]])).cols ∧
    "name" ∈ (artistsMutDF "T" (mkDF [[("name", .str "X"),
      ("listeners", .str "10")]])).cols := by
  obtain ⟨hall, hts, _⟩ :=
    claim_C9 "T" (mkDF [[("name", .str "X"), ("listeners", .str "10")]])
      "geo_artists"
      (artistsMutDF "T" (mkDF [[("name", .str "X"), ("listeners", .str "10")]]))
      (artistsOut "T" (mkDF [[("name", .str "X"), ("listeners", .str "10")]]))
      (by decide) (by decide) rfl
  exact ⟨hts, hall "name" (by decide)⟩

theorem key_map_lookup_none (method : String)
    (h : method ∉ ["geo.gettopartists", "geo.gettoptracks", "chart.gettopartists",
      "chart.gettoptracks", "chart.gettoptags"]) :
    key_map.lookup method = none := by
  simp only [List.mem_cons, List.not_mem_nil, or_false, not_or] at h
  obtain ⟨h1, h2, h3, h4, h5⟩ := h
  simp [key_map, List.lookup_cons,
    show (method == "geo.gettopartists") = false by simpa using h1,
    show (method == "geo.gettoptracks") = false by simpa using h2,
    show (method == "chart.gettopartists") = false by simpa using h3,
    show (method == "chart.gettoptracks") = false by simpa using h4,
    show (method == "chart.gettoptags") = false by simpa using h5]

/-- Claim C5: for each of the five known methods, `extract_global` locates
the nested record list via the static (outer key, inner key) map, returning
an explicitly empty table (not an error) when the outer or the inner key is
absent from the parsed JSON; for a method outside the five the key-map
lookup faults. -/
theorem claim_C5 (method : String) (fields : List (String × Value)) :
    (∀ parentKey childKey, key_map.lookup method = some (parentKey, childKey) →
      (fields.lookup parentKey = none →
        extract_global method (.dict fields) = .ok ⟨[], []⟩) ∧
      (∀ inner, fields.lookup parentKey = some (.dict inner) →
        inner.lookup childKey = none →
          extract_global method (.dict fields) = .ok ⟨[], []⟩) ∧
      (∀ inner vs, fields.lookup parentKey = some (.dict inner) →
        inner.lookup childKey = some (.list vs) →
          extract_global method (.dict fields) = dfOfRecords vs)) ∧
    (key_map.lookup method = none →
      extract_global method (.dict fields) = .error (.keyError method)) ∧
    key_map.lookup "geo.gettopartists" = some ("topartists", "artist") ∧
    key_map.lookup "geo.gettoptracks" = some ("tracks", "track") ∧
    key_map.lookup "chart.gettopartists" = some ("artists", "artist") ∧
    key_map.lookup "chart.gettoptracks" = some ("tracks", "track") ∧
    key_map.lookup "chart.gettoptags" = some ("tags", "tag") ∧
    (method ∉ ["geo.gettopartists", "geo.gettoptracks", "chart.gettopartists",
        "chart.gettoptracks", "chart.gettoptags"] →
      extract_global method (.dict fields) = .error (.keyError method)) := by
  have hunknown : key_map.lookup method = none →
      extract_global method (.dict fields) = .error (.keyError method) := by
    intro hlk
    simp [extract_global, extract_records, hlk]
  refine ⟨?_, hunknown, rfl, rfl, rfl, rfl, rfl,
    fun hm => hunknown (key_map_lookup_none method hm)⟩
  intro parentKey childKey hlk
  have hempty : dfOfRecords ([] : List Value) = .ok ⟨[], []⟩ := rfl
  refine ⟨?_, ?_, ?_⟩
  · intro hnone
    simp [extract_global, extract_records, hlk, hnone, hempty]
  · intro inner hpk hnone
    simp [extract_global, extract_records, hlk, hpk, hnone, hempty]
  · intro inner vs hpk hck
    simp [extract_global, extract_records, hlk, hpk, hck]

/-- Witness for C5: an unknown method name faults with a key error. -/
theorem claim_C5_witness :
    extract_global "user.getinfo" (.dict []) = .error (.keyError "user.getinfo") := by
  obtain ⟨_, _, _, _, _, _, _, hlast⟩ := claim_C5 "user.getinfo" []
  exact hlast (by decide)

/-- Claim C6 is a code bug: only the absence of the credential path faults at
module load (the `os.environ` assignment raises `TypeError` on `None`); a
missing API key raises no configuration fault, and the HTTP GET is still
issued — it is the first and only event of the fetch before any fault can
surface, contradicting "a configuration fault is raised before any network
call".  This theorem evaluates the model at the failing configuration. -/
theorem claim_C6_divergence :
    module_init ⟨some "key", some "proj", some "ds", none⟩ = .error .typeError ∧
    module_init ⟨none, some "proj", some "ds", some "/cred.json"⟩ =
      .ok ⟨none, some "proj", some "ds", some "/cred.json"⟩ ∧
    ∀ fetch : String → HttpResp,
      (extract_global_run none fetch "geo.gettopartists").1 =
        [Event.httpGet "geo.gettopartists" none] :=
  ⟨rfl, rfl, fun _ => rfl⟩

theorem startsOf_load (projectId dataset : Option String) (loadOk : String → Bool)
    (df : DF) (tableName : String) :
    startsOf (load_to_bigquery projectId dataset loadOk df tableName).1 = [] := by
  unfold load_to_bigquery
  split
  · rfl
  · split
    · rfl
    · rfl

theorem startsOf_runPipeline (env : Env) (fetch : String → HttpResp)
    (loadOk : String → Bool) (now : String) (p : String × String × String) :
    startsOf (runPipeline env fetch loadOk now p).1 = [p.2.1] := by
  unfold runPipeline
  dsimp only [extract_global_run]
  cases hr1 : (if (fetch p.1).ok = true then extract_global p.1 (fetch p.1).body
      else Except.error Fault.httpError) with
  | error e => rfl
  | ok df =>
    dsimp only
    cases ht : transform_global now df p.2.1 with
    | error e => rfl
    | ok dfs =>
      dsimp only
      rcases hld : load_to_bigquery env.gcp_project_id env.bq_dataset loadOk
        dfs.2 p.2.2 with ⟨ev2, r2⟩
      have h0 := startsOf_load env.gcp_project_id env.bq_dataset loadOk dfs.2 p.2.2
      rw [hld] at h0
      simp only [startsOf] at h0
      simp [startsOf, h0]

theorem etlGo_all_ok (step : String × String × String → List Event × Except Fault Unit)
    (ps : List (String × String × String))
    (h : ∀ p ∈ ps, (step p).2 = .ok ()) :
    etlGo step ps = ((ps.map (fun p => (step p).1)).flatten, .ok ()) := by
  induction ps with
  | nil => rfl
  | cons p t ih =>
    have hp := h p (List.mem_cons_self p t)
    rcases hps : step p with ⟨ev, r⟩
    rw [hps] at hp
    dsimp only at hp
    subst hp
    simp only [etlGo, hps]
    rw [ih (fun q hq => h q (List.mem_cons_of_mem p hq))]
    simp [hps]

theorem etlGo_first_err (step : String × String × String → List Event × Except Fault Unit)
    (ps1 : List (String × String × String)) (p : String × String × String)
    (ps2 : List (String × String × String)) (e : Fault)
    (h1 : ∀ q ∈ ps1, (step q).2 = .ok ()) (h2 : (step p).2 = .error e) :
    etlGo step (ps1 ++ p :: ps2) =
      ((ps1.map (fun q => (step q).1)).flatten ++ (step p).1, .error e) := by
  induction ps1 with
  | nil =>
    rcases hps : step p with ⟨ev, r⟩
    rw [hps] at h2
    dsimp only at h2
    subst h2
    simp only [List.nil_append, etlGo, hps]
    simp [hps]
  | cons q t ih =>
    have hq := h1 q (List.mem_cons_self q t)
    rcases hqs : step q with ⟨ev, r⟩
    rw [hqs] at hq
    dsimp only at hq
    subst hq
    simp only [List.cons_append, etlGo, hqs, List.append_eq]
    rw [ih (fun q2 hq2 => h1 q2 (List.mem_cons_of_mem q hq2))]
    simp [hqs]

theorem startsOf_flatten_traces (env : Env) (fetch : String → HttpResp)
    (loadOk : String → Bool) (now : String) (qs : List (String × String × String)) :
    startsOf ((qs.map (fun q => (runPipeline env fetch loadOk now q).1)).flatten) =
      qs.map (fun q => q.2.1) := by
  induction qs with
  | nil => rfl
  | cons q t ih =>
    have h1 := startsOf_runPipeline env fetch loadOk now q
    simp only [startsOf] at h1 ih ⊢
    simp only [List.map_cons, List.flatten_cons, List.filterMap_append, h1, ih]
    rfl

/-- Claim C8: the orchestrator attempts the five sub-pipelines sequentially
in the fixed order geo_artists, geo_tracks, chart_artists, chart_tracks,
chart_tags.  When every attempted step succeeds (empty results included) all
five run and the run ends without error; when the first fault arises in
pipeline `p` (after the ok-prefix `ps1`), the run's trace is exactly the
events of `ps1` and `p` — no step of any later sub-pipeline executes — and
the fault propagates out uncaught. -/
theorem claim_C8 (env : Env) (fetch : String → HttpResp) (loadOk : String → Bool)
    (now : String) :
    ((∀ p ∈ pipelines, (runPipeline env fetch loadOk now p).2 = .ok ()) →
      etl_global_topdata env fetch loadOk now =
        ((pipelines.map (fun p => (runPipeline env fetch loadOk now p).1)).flatten,
          .ok ()) ∧
      startsOf (etl_global_topdata env fetch loadOk now).1 = knownLevels) ∧
    (∀ ps1 p ps2 e, pipelines = ps1 ++ p :: ps2 →
      (∀ q ∈ ps1, (runPipeline env fetch loadOk now q).2 = .ok ()) →
      (runPipeline env fetch loadOk now p).2 = .error e →
      etl_global_topdata env fetch loadOk now =
        ((ps1.map (fun q => (runPipeline env fetch loadOk now q).1)).flatten ++
          (runPipeline env fetch loadOk now p).1, .error e) ∧
      startsOf (etl_global_topdata env fetch loadOk now).1 =
        (ps1 ++ [p]).map (fun q => q.2.1)) := by
  constructor
  · intro hok
    have he := etlGo_all_ok (runPipeline env fetch loadOk now) pipelines hok
    refine ⟨he, ?_⟩
    unfold etl_global_topdata
    rw [he]
    exact startsOf_flatten_traces env fetch loadOk now pipelines
  · intro ps1 p ps2 e hsplit h1 h2
    have he := etlGo_first_err (runPipeline env fetch loadOk now) ps1 p ps2 e h1 h2
    constructor
    · unfold etl_global_topdata
      rw [hsplit]
      exact he
    · unfold etl_global_topdata
      rw [hsplit, he]
      dsimp only
      have hA := startsOf_flatten_traces env fetch loadOk now ps1
      have hB := startsOf_runPipeline env fetch loadOk now p
      simp only [startsOf] at hA hB ⊢
      simp [List.filterMap_append, hA, hB]

/-- Witness for C8: with a fetch that always answers an empty payload all
five sub-pipelines are attempted in order. -/
theorem claim_C8_witness :
    startsOf (etl_global_topdata ⟨some "k", some "p", some "d", some "c"⟩
      (fun _ => ⟨true, .dict []⟩) (fun _ => true) "T").1 = knownLevels := by
  obtain ⟨hall, _⟩ := claim_C8 ⟨some "k", some "p", some "d", some "c"⟩
    (fun _ => ⟨true, .dict []⟩) (fun _ => true) "T"
  exact (hall (by intro p hp; fin_cases hp <;> rfl)).2

end LastfmEtl
